import Mathlib

/-!
Verification development for the shalseti multi-tenant inventory backend.

The definitions below are a shallow embedding of the JavaScript source:

* `src/server.js` — the Express route handlers for the inventory ledger
  (`POST /api/products`, `.../add-stock`, `.../remove-stock`, `.../duplicate`,
  `.../transfer`, `PUT /api/products/:barcode`, `DELETE /api/products/:barcode`)
  and the `companyMiddleware` access decision;
* `src/db-manager.js` — the per-tenant connection registry
  (`getCompanyConnection` and its module-level `connectionCache`).

Embedding conventions:

* A tenant's product collection is a `List Product` in insertion order;
  `findOne` is first-match (`List.find?`), `deleteOne` removes the first match,
  and saving a modified document replaces it in place.
* Route handlers take the already-parsed request values as arguments
  (`parseInt`/`parseFloat` and `|| default` happen at the HTTP boundary).
  Quantities are `Int` (results of `parseInt`); prices are modelled as `Int`
  as well — no claim depends on fractional price values, only on copying and
  on the schema's `min: 0` bound.
* Mongoose schema validation that runs inside `document.save()` is modelled by
  `docValid`: `required` on `barcode`/`name` (empty strings fail) and `min: 0`
  on `currentStock`, `buyingPrice`, `sellingPrice`.  A failing save throws,
  which each route's `catch` turns into a generic 500 response with the state
  unchanged.
* ObjectId actor references and timestamps are opaque metadata which no claim
  mentions; they are omitted from the records.
-/

namespace Shalseti

/-- Direction of a stock movement (`type: { enum: ['add', 'remove'] }`). -/
inductive MvType where
  | add
  | remove
deriving DecidableEq

/-- One entry of `stockHistory` (`stockHistorySchema` in `db-manager.js`).
`supplier` defaults to `''` for removes and `location` to `''` for adds,
exactly as the schema defaults do. -/
structure StockMovement where
  quantity : Int
  mvtype : MvType
  note : String
  supplier : String
  location : String
deriving DecidableEq

/-- A product document (`productSchema` in `db-manager.js`), minus opaque
actor/timestamp metadata.  `category` holds the referenced category id,
`categoryName` its denormalised name. -/
structure Product where
  barcode : String
  name : String
  currentStock : Int
  note : String
  buyingPrice : Int
  sellingPrice : Int
  boughtFrom : String
  sellLocation : String
  imageUrl : String
  unit : String
  category : Option String
  categoryName : String
  stockHistory : List StockMovement
deriving DecidableEq

/-- One tenant's product collection, in insertion order. -/
structure Tenant where
  products : List Product
deriving DecidableEq

/-- HTTP-level error responses produced by the route handlers. -/
inductive ApiError where
  | badRequest (msg : String)
  | forbidden (msg : String)
  | notFound (msg : String)
  | conflict (msg : String)
  | serverError (msg : String)
deriving DecidableEq

/-- The authenticated principal as the middleware sees it: `isSuperAdmin`
and the `companyAccess` grant list (slugs).  `none` models a user document
where the `companyAccess` field is absent altogether. -/
structure UserAuth where
  isSuperAdmin : Bool
  companyAccess : Option (List String)
deriving DecidableEq

/-- ASCII whitespace, for the embedding of JavaScript `String.prototype.trim`. -/
def isWs (c : Char) : Bool :=
  c == ' ' || c == '\t' || c == '\n' || c == '\r'

/-- Strip leading and trailing whitespace from a character list. -/
def trimChars (l : List Char) : List Char :=
  (((l.dropWhile isWs).reverse.dropWhile isWs).reverse)

/-- JavaScript `s.trim()` (embedded over the character list so that concrete
values reduce in the kernel). -/
def jsTrim (s : String) : String := ⟨trimChars s.data⟩

/-- `req.Product.findOne({ barcode: b })`: first document whose barcode is `b`. -/
def findProduct (t : Tenant) (b : String) : Option Product :=
  t.products.find? (fun p => p.barcode == b)

/-- Replace the first product with barcode `b` by `p'` (saving a modified
document back into the collection). -/
def replaceFirst (ps : List Product) (b : String) (p' : Product) : List Product :=
  match ps with
  | [] => []
  | p :: rest => if p.barcode == b then p' :: rest else p :: replaceFirst rest b p'

/-- `deleteOne({ barcode: b })`: remove the first product with barcode `b`. -/
def deleteFirst (ps : List Product) (b : String) : List Product :=
  match ps with
  | [] => []
  | p :: rest => if p.barcode == b then rest else p :: deleteFirst rest b

/-- Mongoose validation run by `document.save()`: `required: true` on
`barcode` and `name`, `min: 0` on `currentStock`, `buyingPrice`,
`sellingPrice`.  A save of an invalid document throws. -/
def docValid (p : Product) : Prop :=
  p.barcode ≠ "" ∧ p.name ≠ "" ∧ 0 ≤ p.currentStock ∧
    0 ≤ p.buyingPrice ∧ 0 ≤ p.sellingPrice

instance (p : Product) : Decidable (docValid p) :=
  inferInstanceAs (Decidable (p.barcode ≠ "" ∧ p.name ≠ "" ∧ 0 ≤ p.currentStock ∧
    0 ≤ p.buyingPrice ∧ 0 ≤ p.sellingPrice))

/-- The signed contribution of one movement: adds count positive, removes
negative. -/
def signedQty (m : StockMovement) : Int :=
  match m.mvtype with
  | .add => m.quantity
  | .remove => -m.quantity

/-- Signed sum of a stock history. -/
def stockSum (h : List StockMovement) : Int :=
  (h.map signedQty).sum

theorem stockSum_append (h₁ h₂ : List StockMovement) :
    stockSum (h₁ ++ h₂) = stockSum h₁ + stockSum h₂ := by
  simp [stockSum]

/-! ### Barcode collision avoidance

The duplicate and transfer routes build replacement barcodes `base(1)`,
`base(2)`, … by splicing a JavaScript number into a template literal; the
decimal rendering of the counter is embedded by `natDecStr`. -/

/-- Decimal digit characters of `n`, most significant first (the rendering of
a JS number inside a template literal).  Structural recursion on `fuel` so
that concrete values reduce in the kernel; `fuel = n + 1` always suffices. -/
def decDigitsAux : Nat → Nat → List Char
  | 0, _ => []
  | fuel + 1, n =>
    if n < 10 then [Nat.digitChar n]
    else decDigitsAux fuel (n / 10) ++ [Nat.digitChar (n % 10)]

/-- Decimal digit characters of `n`, most significant first. -/
def decDigits (n : Nat) : List Char := decDigitsAux (n + 1) n

/-- Decimal string of a natural number. -/
def natDecStr (n : Nat) : String := ⟨decDigits n⟩

/-- Read a digit list back as a number; left inverse of `decDigits`. -/
def decVal (l : List Char) : Nat :=
  l.foldl (fun a c => 10 * a + (c.toNat - 48)) 0

theorem decVal_append (l : List Char) (c : Char) :
    decVal (l ++ [c]) = 10 * decVal l + (c.toNat - 48) := by
  simp [decVal, List.foldl_append]

theorem toNat_digitChar (n : Nat) (h : n < 10) : (Nat.digitChar n).toNat - 48 = n := by
  interval_cases n <;> decide

theorem decVal_decDigitsAux (fuel : Nat) :
    ∀ n, n < fuel → decVal (decDigitsAux fuel n) = n := by
  induction fuel with
  | zero => omega
  | succ fuel ih =>
    intro n hn
    simp only [decDigitsAux]
    split
    · next h =>
      simp [decVal, toNat_digitChar n h]
    · next h =>
      have hdiv : n / 10 < n := Nat.div_lt_self (by omega) (by omega)
      rw [decVal_append, ih (n / 10) (by omega),
        toNat_digitChar (n % 10) (Nat.mod_lt n (by omega))]
      omega

theorem decVal_decDigits (n : Nat) : decVal (decDigits n) = n :=
  decVal_decDigitsAux (n + 1) n (by omega)

theorem decDigits_injective : Function.Injective decDigits := by
  intro m n h
  have := decVal_decDigits m
  rw [h, decVal_decDigits] at this
  omega

theorem natDecStr_injective : Function.Injective natDecStr := by
  intro m n h
  exact decDigits_injective (by injection h)

/-- The k-th candidate barcode tried by the collision loops: the base barcode
itself for `k = 0`, then `base(k)` (`` `${base}(${counter})` `` in the
source). -/
def candidateBarcode (base : String) : Nat → String
  | 0 => base
  | Nat.succ k => base ++ "(" ++ natDecStr (k + 1) ++ ")"

theorem candidateBarcode_injective (base : String) :
    Function.Injective (candidateBarcode base) := by
  have hdata : ∀ k : Nat,
      (candidateBarcode base (k + 1)).data
        = base.data ++ ('(' :: decDigits (k + 1) ++ [')']) := by
    intro k
    show (base ++ "(" ++ natDecStr (k + 1) ++ ")").data = _
    simp [String.data_append, natDecStr]
  intro i j h
  match i, j with
  | 0, 0 => rfl
  | 0, j + 1 =>
    exfalso
    have hd : base.data = (candidateBarcode base (j + 1)).data := congrArg String.data h
    rw [hdata j] at hd
    have := congrArg List.length hd
    simp at this
  | i + 1, 0 =>
    exfalso
    have hd : (candidateBarcode base (i + 1)).data = base.data := congrArg String.data h
    rw [hdata i] at hd
    have := congrArg List.length hd
    simp at this
  | i + 1, j + 1 =>
    have hd := congrArg String.data h
    rw [hdata i, hdata j] at hd
    have h1 : decDigits (i + 1) ++ [')'] = decDigits (j + 1) ++ [')'] := by
      have := List.append_cancel_left hd
      exact List.cons_injective this
    have h2 : decDigits (i + 1) = decDigits (j + 1) :=
      (List.append_inj' h1 (by simp)).1
    have := decDigits_injective h2
    omega

/-- Pigeonhole: if the first `k` candidate barcodes are all taken from a list
`used`, then `k` is at most the length of `used` — the candidates are
pairwise distinct strings. -/
theorem length_le_of_candidates_used (used : List String) (base : String) (k m : Nat)
    (h : ∀ j < m, candidateBarcode base (k + j) ∈ used) : m ≤ used.length := by
  have hinj : Function.Injective (fun j : Nat => candidateBarcode base (k + j)) := by
    intro a b hab
    have := candidateBarcode_injective base hab
    omega
  have hnd : ((List.range m).map (fun j => candidateBarcode base (k + j))).Nodup :=
    (List.nodup_range m).map hinj
  have hsub : ((List.range m).map (fun j => candidateBarcode base (k + j))) ⊆ used := by
    intro x hx
    rcases List.mem_map.mp hx with ⟨j, hj, rfl⟩
    exact h j (List.mem_range.mp hj)
  have := (List.Nodup.subperm hnd hsub).length_le
  simpa using this

/-- Is a barcode already taken in the tenant
(`await Product.findOne({ barcode }) !== null`)? -/
def inUse (t : Tenant) (b : String) : Bool :=
  t.products.any (fun p => p.barcode == b)

theorem inUse_iff_mem (t : Tenant) (b : String) :
    inUse t b = true ↔ b ∈ t.products.map (fun p => p.barcode) := by
  simp only [inUse, List.any_eq_true, beq_iff_eq, List.mem_map]

/-- The collision loop `while (await Product.findOne({ barcode: candidate }))`:
try candidate indices `k, k+1, …` and return the first index whose candidate
is free.  The source loop is unbounded; the `fuel` argument bounds the
recursion, and `findFreeFrom_isSome` shows that the fuel supplied by the
callers below is never exhausted, so the embedding computes exactly what the
unbounded loop does. -/
def findFreeFrom (t : Tenant) (base : String) : Nat → Nat → Option Nat
  | 0, _ => none
  | fuel + 1, k =>
    if inUse t (candidateBarcode base k) then findFreeFrom t base fuel (k + 1)
    else some k

theorem findFreeFrom_eq (t : Tenant) (base : String) :
    ∀ (i fuel k : Nat), i < fuel →
      inUse t (candidateBarcode base (k + i)) = false →
      (∀ j < i, inUse t (candidateBarcode base (k + j)) = true) →
      findFreeFrom t base fuel k = some (k + i) := by
  intro i
  induction i with
  | zero =>
    intro fuel k hfuel hfree _
    match fuel, hfuel with
    | fuel + 1, _ =>
      simp only [findFreeFrom]
      rw [show k + 0 = k by omega] at hfree
      simp [hfree]
  | succ i ih =>
    intro fuel k hfuel hfree hmin
    match fuel, hfuel with
    | fuel + 1, hfuel =>
      have h0 : inUse t (candidateBarcode base k) = true := by
        have := hmin 0 (by omega)
        simpa using this
      simp only [findFreeFrom, h0, if_true]
      have := ih fuel (k + 1) (by omega)
        (by rw [show k + 1 + i = k + (i + 1) by omega]; exact hfree)
        (fun j hj => by
          rw [show k + 1 + j = k + (j + 1) by omega]
          exact hmin (j + 1) (by omega))
      rw [this]
      congr 1
      omega

theorem findFreeFrom_exists_free (t : Tenant) (base : String) (k : Nat) :
    ∃ i, i ≤ t.products.length ∧ inUse t (candidateBarcode base (k + i)) = false := by
  by_contra hcon
  push_neg at hcon
  have hall : ∀ j < t.products.length + 1,
      candidateBarcode base (k + j) ∈ t.products.map (fun p => p.barcode) := by
    intro j hj
    have := hcon j (by omega)
    cases h : inUse t (candidateBarcode base (k + j)) with
    | false => exact absurd h this
    | true => exact (inUse_iff_mem t _).mp h
  have : t.products.length + 1 ≤ (t.products.map (fun p => p.barcode)).length :=
    length_le_of_candidates_used (t.products.map (fun p => p.barcode)) base k
      (t.products.length + 1) hall
  simp at this

/-- Barcode generation of the transfer route (server.js:1152–1163): keep the
source barcode if it is unused in the target tenant, otherwise run the
collision loop from `base(1)` upward.  The fuel `t.products.length + 1`
provably suffices (`findFreeFrom_exists_free`), so the `none` fallback is
dead code. -/
def generateUniqueBarcode (t : Tenant) (base : String) : String :=
  if inUse t base then
    match findFreeFrom t base (t.products.length + 1) 1 with
    | some k => candidateBarcode base k
    | none => base
  else base

/-- Barcode generation of the duplicate route (server.js:1050–1058): start at
`base(1)` and increment while taken.  The duplicate handler never considers
`base` itself. -/
def dupNewBarcode (t : Tenant) (base : String) : String :=
  match findFreeFrom t base (t.products.length + 1) 1 with
  | some k => candidateBarcode base k
  | none => candidateBarcode base 1

/-- The loop starting at index 1 lands on the least free candidate index
at least 1. -/
theorem findFreeFrom_one_eq (t : Tenant) (base : String) (k : Nat)
    (hk : 1 ≤ k) (hfree : inUse t (candidateBarcode base k) = false)
    (hmin : ∀ j, 1 ≤ j → j < k → inUse t (candidateBarcode base j) = true) :
    findFreeFrom t base (t.products.length + 1) 1 = some k := by
  have hle : k - 1 ≤ t.products.length := by
    have : k - 1 ≤ (t.products.map (fun p => p.barcode)).length := by
      apply length_le_of_candidates_used (t.products.map (fun p => p.barcode)) base 1 (k - 1)
      intro j hj
      exact (inUse_iff_mem t _).mp (hmin (1 + j) (by omega) (by omega))
    simpa using this
  have := findFreeFrom_eq t base (k - 1) (t.products.length + 1) 1 (by omega)
    (by rw [show 1 + (k - 1) = k by omega]; exact hfree)
    (fun j hj => hmin (1 + j) (by omega) (by omega))
  rw [this]
  congr 1
  omega

/-- `generateUniqueBarcode` returns the first candidate of the sequence
`base, base(1), base(2), …` that is not in use in the tenant. -/
theorem generateUniqueBarcode_eq (t : Tenant) (base : String) (k : Nat)
    (hfree : inUse t (candidateBarcode base k) = false)
    (hmin : ∀ j < k, inUse t (candidateBarcode base j) = true) :
    generateUniqueBarcode t base = candidateBarcode base k := by
  unfold generateUniqueBarcode
  cases hbase : inUse t base with
  | false =>
    have hk : k = 0 := by
      by_contra hne
      have := hmin 0 (by omega)
      simp [candidateBarcode] at this
      simp [this] at hbase
    subst hk
    simp [candidateBarcode]
  | true =>
    have hk : 1 ≤ k := by
      by_contra hne
      have hk0 : k = 0 := by omega
      subst hk0
      simp [candidateBarcode] at hfree
      simp [hfree] at hbase
    rw [if_pos rfl, findFreeFrom_one_eq t base k hk hfree (fun j h1 hj => hmin j hj)]

/-- `dupNewBarcode` returns the first candidate of the tail sequence
`base(1), base(2), …` that is not in use (it skips index 0). -/
theorem dupNewBarcode_eq (t : Tenant) (base : String) (k : Nat)
    (hk : 1 ≤ k) (hfree : inUse t (candidateBarcode base k) = false)
    (hmin : ∀ j, 1 ≤ j → j < k → inUse t (candidateBarcode base j) = true) :
    dupNewBarcode t base = candidateBarcode base k := by
  unfold dupNewBarcode
  rw [findFreeFrom_one_eq t base k hk hfree hmin]

/-! ### Route handlers of the inventory ledger (src/server.js)

Each handler returns the HTTP-level result together with the tenant state
after the request.  A thrown mongoose validation error is caught by the
route's `catch` block, which answers with the generic 500 message and leaves
the stored state untouched. -/

/-- `document.save()` of a freshly constructed document: validate, then
append to the collection.  A validation failure throws; the route's `catch`
answers with the generic 500 message `errMsg` and the state is unchanged. -/
def trySave (t : Tenant) (p : Product) (errMsg : String) :
    Except ApiError Unit × Tenant :=
  if docValid p then (.ok (), ⟨t.products ++ [p]⟩)
  else (.error (.serverError errMsg), t)

/-- `document.save()` of a document loaded by barcode `b` and modified in
memory: validate, then write the modified document back in place. -/
def trySaveReplace (t : Tenant) (b : String) (p' : Product) (errMsg : String) :
    Except ApiError Unit × Tenant :=
  if docValid p' then (.ok (), ⟨replaceFirst t.products b p'⟩)
  else (.error (.serverError errMsg), t)

/-- `POST /api/products` (server.js:967–1037).  Arguments are the parsed
request body: `initialQuantity` is `parseInt(quantity) || 0`, the prices are
`parseFloat(...) || 0`, `boughtFrom`/`sellLocation`/`unit`/`note` are `''`
when absent, and `categoryDoc` is the result of the `Category.findById`
lookup (id and name), `none` when no category was sent or found. -/
def createProduct (t : Tenant) (barcode name : String) (initialQuantity : Int)
    (note : String) (buyingPrice sellingPrice : Int)
    (boughtFrom sellLocation unit : String)
    (categoryDoc : Option (String × String)) : Except ApiError Unit × Tenant :=
  if barcode = "" ∨ name = "" then
    (.error (.badRequest "Barcode and name are required"), t)
  else if (findProduct t (jsTrim barcode)).isSome then
    (.error (.conflict "Product with this barcode already exists"), t)
  else
    trySave t
      { barcode := (jsTrim barcode)
        name := (jsTrim name)
        currentStock := initialQuantity
        note := note
        buyingPrice := buyingPrice
        sellingPrice := sellingPrice
        boughtFrom := (jsTrim boughtFrom)
        sellLocation := (jsTrim sellLocation)
        imageUrl := ""
        unit := if (jsTrim unit) = "" then "ədəd" else (jsTrim unit)
        category := categoryDoc.map (fun c => c.1)
        categoryName := (categoryDoc.map (fun c => c.2)).getD ""
        stockHistory :=
          if initialQuantity > 0 then
            [{ quantity := initialQuantity, mvtype := .add
               note := if note = "" then "Initial stock" else note
               supplier := (jsTrim boughtFrom), location := "" }]
          else [] }
      "Failed to create product"

/-- `POST /api/products/:barcode/add-stock` (server.js:1212–1255).
`quantity` is the `parseInt` result; `!addQuantity || addQuantity <= 0`
rejects `NaN`, `0` and negatives, which the `quantity ≤ 0` guard captures. -/
def addStock (t : Tenant) (barcode : String) (quantity : Int)
    (note supplier : String) : Except ApiError Unit × Tenant :=
  if quantity ≤ 0 then
    (.error (.badRequest "Valid quantity is required"), t)
  else
    match findProduct t (jsTrim barcode) with
    | none => (.error (.notFound "Product not found"), t)
    | some p =>
      trySaveReplace t (jsTrim barcode)
        { p with
          currentStock := p.currentStock + quantity
          stockHistory := p.stockHistory ++
            [{ quantity := quantity, mvtype := .add, note := note
               supplier := (jsTrim supplier), location := "" }] }
        "Failed to add stock"

/-- `POST /api/products/:barcode/remove-stock` (server.js:1258–1305). -/
def removeStock (t : Tenant) (barcode : String) (quantity : Int)
    (note loc : String) : Except ApiError Unit × Tenant :=
  if quantity ≤ 0 then
    (.error (.badRequest "Valid quantity is required"), t)
  else
    match findProduct t (jsTrim barcode) with
    | none => (.error (.notFound "Product not found"), t)
    | some p =>
      if p.currentStock < quantity then
        (.error (.badRequest "Insufficient stock"), t)
      else
        trySaveReplace t (jsTrim barcode)
          { p with
            currentStock := p.currentStock - quantity
            stockHistory := p.stockHistory ++
              [{ quantity := quantity, mvtype := .remove, note := note
                 supplier := "", location := (jsTrim loc) }] }
          "Failed to remove stock"

/-- `POST /api/products/:barcode/duplicate` (server.js:1040–1112).  The
original is looked up by the trimmed barcode; the collision candidates are
built from the raw route parameter, exactly as in the source. -/
def duplicateProduct (t : Tenant) (barcode : String) :
    Except ApiError Unit × Tenant :=
  match findProduct t (jsTrim barcode) with
  | none => (.error (.notFound "Product not found"), t)
  | some orig =>
    trySave t
      { barcode := dupNewBarcode t barcode
        name := orig.name
        currentStock := orig.currentStock
        note := orig.note
        buyingPrice := orig.buyingPrice
        sellingPrice := orig.sellingPrice
        boughtFrom := orig.boughtFrom
        sellLocation := orig.sellLocation
        imageUrl := orig.imageUrl
        unit := orig.unit
        category := orig.category
        categoryName := orig.categoryName
        stockHistory :=
          if orig.currentStock > 0 then
            [{ quantity := orig.currentStock, mvtype := .add
               note := "Duplicated from " ++ barcode
               supplier := "", location := "" }]
          else [] }
      "Failed to duplicate product"

/-- Field updates requested by `PUT /api/products/:barcode`; `none` means the
field was absent from the request body.  For the category, `some none`
models `category: null` or `''` (clear) and `some (some d)` a provided id
whose `findById` lookup succeeded with document `d`; a failed lookup leaves
the category untouched, like an absent field. -/
structure UpdateArgs where
  name : Option String := none
  note : Option String := none
  buyingPrice : Option Int := none
  sellingPrice : Option Int := none
  boughtFrom : Option String := none
  sellLocation : Option String := none
  imageUrl : Option String := none
  unit : Option String := none
  newBarcode : Option String := none
  category : Option (Option (String × String)) := none
deriving DecidableEq

/-- The barcode-change step of `PUT /api/products/:barcode`
(server.js:1391–1397): when a `newBarcode` is provided and differs from the
route parameter after trimming, reject if the new barcode is taken,
otherwise rename the document. -/
def updateBarcodeStep (t : Tenant) (barcode : String) (nbArg : Option String)
    (p : Product) : Except ApiError Product :=
  match nbArg with
  | none => .ok p
  | some nb =>
    if (jsTrim nb) = (jsTrim barcode) then .ok p
    else if (findProduct t (jsTrim nb)).isSome then
      .error (.badRequest "A product with this barcode already exists")
    else .ok { p with barcode := (jsTrim nb) }

/-- The `if (field !== undefined)` assignments of the update route
(server.js:1400–1407). -/
def applyUpdateFields (p1 : Product) (args : UpdateArgs) : Product :=
  { p1 with
    name := ((args.name.map jsTrim).getD p1.name)
    note := ((args.note.map jsTrim).getD p1.note)
    buyingPrice := args.buyingPrice.getD p1.buyingPrice
    sellingPrice := args.sellingPrice.getD p1.sellingPrice
    boughtFrom := ((args.boughtFrom.map jsTrim).getD p1.boughtFrom)
    sellLocation := ((args.sellLocation.map jsTrim).getD p1.sellLocation)
    imageUrl := args.imageUrl.getD p1.imageUrl
    unit :=
      match args.unit with
      | none => p1.unit
      | some u => if (jsTrim u) = "" then "ədəd" else (jsTrim u) }

/-- The category assignment of the update route (server.js:1410–1421). -/
def applyUpdateCategory (p2 : Product) :
    Option (Option (String × String)) → Product
  | none => p2
  | some none => { p2 with category := none, categoryName := "" }
  | some (some d) => { p2 with category := some d.1, categoryName := d.2 }

/-- `PUT /api/products/:barcode` (server.js:1380–1434): metadata update.  It
never touches `currentStock` or `stockHistory`. -/
def updateProduct (t : Tenant) (barcode : String) (args : UpdateArgs) :
    Except ApiError Unit × Tenant :=
  match findProduct t (jsTrim barcode) with
  | none => (.error (.notFound "Product not found"), t)
  | some p =>
    match updateBarcodeStep t barcode args.newBarcode p with
    | .error e => (.error e, t)
    | .ok p1 =>
      trySaveReplace t (jsTrim barcode)
        (applyUpdateCategory (applyUpdateFields p1 args) args.category)
        "Failed to update product"

/-- `DELETE /api/products/:barcode` (server.js:1437–1456). -/
def deleteProduct (t : Tenant) (barcode : String) :
    Except ApiError Unit × Tenant :=
  match findProduct t (jsTrim barcode) with
  | none => (.error (.notFound "Product not found"), t)
  | some _ => (.ok (), ⟨deleteFirst t.products (jsTrim barcode)⟩)

/-- `user.companyAccess?.some(ca => ca.companySlug === slug)`; an absent
`companyAccess` field makes the optional chain yield `undefined`, which is
falsy. -/
def hasAccessTo (user : UserAuth) (slug : String) : Bool :=
  match user.companyAccess with
  | none => false
  | some l => l.any (fun s => s == slug)

instance {ε α : Type} [DecidableEq ε] [DecidableEq α] : DecidableEq (Except ε α) :=
  fun a b =>
    match a, b with
    | .error x, .error y =>
      match decEq x y with
      | isTrue h => isTrue (congrArg Except.error h)
      | isFalse h => isFalse (fun hc => h (Except.error.inj hc))
    | .error _, .ok _ => isFalse (fun hc => Except.noConfusion hc)
    | .ok _, .error _ => isFalse (fun hc => Except.noConfusion hc)
    | .ok x, .ok y =>
      match decEq x y with
      | isTrue h => isTrue (congrArg Except.ok h)
      | isFalse h => isFalse (fun hc => h (Except.ok.inj hc))

/-- Result and side effects of `POST /api/products/:barcode/transfer`:
the HTTP response (success message or error) plus both tenants' states
after the request. -/
structure TransferOutput where
  response : Except ApiError String
  src : Tenant
  tgt : Tenant
deriving DecidableEq

/-- The destination document built by the transfer route
(server.js:1166–1187): descriptive fields and `currentStock` copied from the
source product, the category reference dropped (`category: null`,
`categoryName: ''`), and the history a single synthetic `add` entry noting
the origin tenant. -/
def transferredCopy (srcSlug : String) (tgt : Tenant) (sp : Product) : Product :=
  { barcode := generateUniqueBarcode tgt sp.barcode
    name := sp.name
    currentStock := sp.currentStock
    note := sp.note
    buyingPrice := sp.buyingPrice
    sellingPrice := sp.sellingPrice
    boughtFrom := sp.boughtFrom
    sellLocation := sp.sellLocation
    imageUrl := sp.imageUrl
    unit := sp.unit
    category := none
    categoryName := ""
    stockHistory :=
      [{ quantity := sp.currentStock, mvtype := .add
         note := "Transferred from " ++ srcSlug
         supplier := "", location := "" }] }

/-- `POST /api/products/:barcode/transfer` (server.js:1115–1209).
`targetActive` is whether `Company.findOne({ slug, isActive: true })`
succeeds.  `saveFails` injects an infrastructure failure of the destination
`save()` (e.g. destination unreachable) and `deleteFails` one of the source
`deleteOne()`; both are routed to the single `catch`, which answers 500
`'Failed to transfer product'`. -/
def transferProduct (srcSlug tgtSlug : String) (src tgt : Tenant)
    (barcode : String) (keepOriginal : Bool) (user : UserAuth)
    (targetActive saveFails deleteFails : Bool) : TransferOutput :=
  if tgtSlug = "" then
    ⟨.error (.badRequest "Target company slug is required"), src, tgt⟩
  else if tgtSlug = srcSlug then
    ⟨.error (.badRequest "Cannot transfer to the same company"), src, tgt⟩
  else if ¬user.isSuperAdmin ∧ ¬hasAccessTo user tgtSlug then
    ⟨.error (.forbidden "No access to target company"), src, tgt⟩
  else if ¬targetActive then
    ⟨.error (.notFound "Target company not found"), src, tgt⟩
  else
    match findProduct src (jsTrim barcode) with
    | none => ⟨.error (.notFound "Product not found"), src, tgt⟩
    | some sp =>
      if saveFails ∨ ¬docValid (transferredCopy srcSlug tgt sp) then
        ⟨.error (.serverError "Failed to transfer product"), src, tgt⟩
      else if keepOriginal then
        ⟨.ok "Product copied to target company", src,
          ⟨tgt.products ++ [transferredCopy srcSlug tgt sp]⟩⟩
      else if deleteFails then
        ⟨.error (.serverError "Failed to transfer product"), src,
          ⟨tgt.products ++ [transferredCopy srcSlug tgt sp]⟩⟩
      else
        ⟨.ok "Product transferred to target company",
          ⟨deleteFirst src.products (jsTrim barcode)⟩,
          ⟨tgt.products ++ [transferredCopy srcSlug tgt sp]⟩⟩

/-- The admission decision of `companyMiddleware` (server.js:105–141) for a
non-absent resolved slug: super admins pass, otherwise a grant for the slug
or the legacy fallback (`companyAccess` absent or empty) admits. -/
def companyMiddlewareAdmits (user : UserAuth) (slug : String) : Bool :=
  if user.isSuperAdmin then true
  else
    let hasAccess := hasAccessTo user slug
    let legacyAccess :=
      match user.companyAccess with
      | none => true
      | some l => l.isEmpty
    hasAccess || legacyAccess

/-- `req.companySlug` resolution: an absent `x-company-slug` header falls
back to `config.DEFAULT_COMPANY_SLUG`. -/
def resolveCompanySlug (header : Option String) (defaultSlug : String) : String :=
  header.getD defaultSlug

/-! ### Tenant connection registry (src/db-manager.js)

`getCompanyConnection` runs on the Node event loop.  Its body has exactly two
atomic blocks, separated by the single `await mongoose.createConnection(...)`:
the cache check (including the stale-entry delete) runs synchronously up to
the point where the connection attempt starts, and after the await resolves,
`registerModels` plus `connectionCache.set` plus the return run synchronously
again.  Concurrency is modelled as an arbitrary interleaving (schedule) of
these blocks across in-flight calls. -/

/-- A mongoose connection; `readyState === 1` means connected. -/
structure Conn where
  readyState : Nat
deriving DecidableEq

/-- Program counter of one in-flight `getCompanyConnection` call:
before the cache check, after the `await createConnection` resolved, or
returned with a connection. -/
inductive CallPc where
  | start
  | afterCreate
  | done (c : Conn)
deriving DecidableEq

/-- Global registry state: the module-level `connectionCache`, the number of
`mongoose.createConnection` calls performed so far, and the in-flight
callers (requested slug plus program counter). -/
structure RegistryState where
  cache : List (String × Conn)
  creations : Nat
  callers : List (String × CallPc)
deriving DecidableEq

/-- `connectionCache.get`/`has`. -/
def cacheLookup (cache : List (String × Conn)) (slug : String) : Option Conn :=
  (cache.find? (fun e => e.1 == slug)).map (fun e => e.2)

/-- `connectionCache.delete`. -/
def cacheErase (cache : List (String × Conn)) (slug : String) : List (String × Conn) :=
  cache.filter (fun e => !(e.1 == slug))

/-- `connectionCache.set`. -/
def cacheSet (cache : List (String × Conn)) (slug : String) (c : Conn) :
    List (String × Conn) :=
  match cache with
  | [] => [(slug, c)]
  | e :: rest => if e.1 == slug then (slug, c) :: rest else e :: cacheSet rest slug c

/-- Update the program counter of caller `i`. -/
def setCallerPc : List (String × CallPc) → Nat → CallPc → List (String × CallPc)
  | [], _, _ => []
  | e :: rest, 0, pc => (e.1, pc) :: rest
  | e :: rest, i + 1, pc => e :: setCallerPc rest i pc

/-- Run one atomic block of caller `i` (a no-op if `i` is out of range or the
caller already returned).  `start`: lines 24–37 of db-manager.js — return the
cached connection if present and connected, delete a stale entry, otherwise
begin `mongoose.createConnection` (counted as one creation).  `afterCreate`:
lines 39–49 — register models, cache the new connection, return it. -/
def registryStep (st : RegistryState) (i : Nat) : RegistryState :=
  match st.callers.get? i with
  | none => st
  | some (slug, pc) =>
    match pc with
    | .done _ => st
    | .start =>
      match cacheLookup st.cache slug with
      | some c =>
        if c.readyState = 1 then
          { st with callers := setCallerPc st.callers i (.done c) }
        else
          { st with
            cache := cacheErase st.cache slug
            creations := st.creations + 1
            callers := setCallerPc st.callers i .afterCreate }
      | none =>
        { st with
          creations := st.creations + 1
          callers := setCallerPc st.callers i .afterCreate }
    | .afterCreate =>
      { st with
        cache := cacheSet st.cache slug ⟨1⟩
        callers := setCallerPc st.callers i (.done ⟨1⟩) }

/-- Run a schedule (interleaving) of atomic blocks. -/
def registryRun (st : RegistryState) (sched : List Nat) : RegistryState :=
  sched.foldl registryStep st

/-! ### Multi-tenant system state and operation sequences

A system state maps company slugs to tenant databases.  A slug that was never
written holds the empty tenant — Mongo materialises a database lazily, so
every slug denotes a (possibly empty) collection. -/

/-- System state: association list from company slug to tenant state. -/
abbrev Sys : Type := List (String × Tenant)

/-- The tenant database for a slug (empty if never written). -/
def getTenant (sys : Sys) (slug : String) : Tenant :=
  match sys.find? (fun e => e.1 == slug) with
  | some e => e.2
  | none => ⟨[]⟩

/-- Write back a tenant state for a slug. -/
def setTenant : Sys → String → Tenant → Sys
  | [], slug, t => [(slug, t)]
  | e :: rest, slug, t =>
    if e.1 == slug then (slug, t) :: rest else e :: setTenant rest slug t

/-- One ledger request, with the tenant(s) it addresses. -/
inductive Op where
  | create (slug barcode name : String) (initialQuantity : Int) (note : String)
      (buyingPrice sellingPrice : Int) (boughtFrom sellLocation unit : String)
      (categoryDoc : Option (String × String))
  | add (slug barcode : String) (quantity : Int) (note supplier : String)
  | remove (slug barcode : String) (quantity : Int) (note loc : String)
  | duplicate (slug barcode : String)
  | update (slug barcode : String) (args : UpdateArgs)
  | transfer (srcSlug tgtSlug barcode : String) (keepOriginal : Bool)
      (user : UserAuth) (targetActive saveFails deleteFails : Bool)
  | delete (slug barcode : String)

/-- Apply one request to the system state. -/
def applyOp (sys : Sys) : Op → Sys
  | .create slug barcode name q note bp sp bf sl u cat =>
    setTenant sys slug (createProduct (getTenant sys slug) barcode name q note bp sp bf sl u cat).2
  | .add slug barcode q note s =>
    setTenant sys slug (addStock (getTenant sys slug) barcode q note s).2
  | .remove slug barcode q note l =>
    setTenant sys slug (removeStock (getTenant sys slug) barcode q note l).2
  | .duplicate slug barcode =>
    setTenant sys slug (duplicateProduct (getTenant sys slug) barcode).2
  | .update slug barcode args =>
    setTenant sys slug (updateProduct (getTenant sys slug) barcode args).2
  | .transfer s d barcode keep user act sf df =>
    let out := transferProduct s d (getTenant sys s) (getTenant sys d) barcode keep user act sf df
    setTenant (setTenant sys s out.src) d out.tgt
  | .delete slug barcode =>
    setTenant sys slug (deleteProduct (getTenant sys slug) barcode).2

/-- Run a request sequence. -/
def runOps (sys : Sys) (ops : List Op) : Sys :=
  ops.foldl applyOp sys

/-! ### Membership helpers for state invariants -/

/-- A per-product predicate holds throughout a tenant. -/
abbrev TenantAll (P : Product → Prop) (t : Tenant) : Prop :=
  ∀ p ∈ t.products, P p

/-- A per-product predicate holds throughout the system. -/
abbrev SysAll (P : Product → Prop) (sys : Sys) : Prop :=
  ∀ e ∈ sys, TenantAll P e.2

theorem tenantAll_getTenant {P : Product → Prop} {sys : Sys}
    (h : SysAll P sys) (slug : String) : TenantAll P (getTenant sys slug) := by
  unfold getTenant
  cases hf : sys.find? (fun e => e.1 == slug) with
  | none => intro p hp; simp at hp
  | some e => exact h e (List.mem_of_find?_eq_some hf)

theorem sysAll_setTenant {P : Product → Prop} {sys : Sys} {slug : String} {t : Tenant}
    (h : SysAll P sys) (ht : TenantAll P t) : SysAll P (setTenant sys slug t) := by
  induction sys with
  | nil =>
    intro e he
    simp [setTenant] at he
    subst he
    exact ht
  | cons hd rest ih =>
    intro e he
    simp only [setTenant] at he
    split at he
    · rcases List.mem_cons.mp he with rfl | hmem
      · exact ht
      · exact h e (List.mem_cons_of_mem hd hmem)
    · rcases List.mem_cons.mp he with rfl | hmem
      · exact h _ (List.mem_cons_self _ _)
      · exact ih (fun x hx => h x (List.mem_cons_of_mem hd hx)) e hmem

theorem tenantAll_append {P : Product → Prop} {t : Tenant} {p : Product}
    (h : TenantAll P t) (hp : P p) : TenantAll P ⟨t.products ++ [p]⟩ := by
  intro x hx
  rcases List.mem_append.mp hx with hmem | hmem
  · exact h x hmem
  · rcases List.mem_singleton.mp hmem with rfl
    exact hp

theorem mem_replaceFirst {x p' : Product} {b : String} :
    ∀ {ps : List Product}, x ∈ replaceFirst ps b p' → x = p' ∨ x ∈ ps := by
  intro ps
  induction ps with
  | nil => intro hx; simp [replaceFirst] at hx
  | cons hd rest ih =>
    intro hx
    simp only [replaceFirst] at hx
    split at hx
    · rcases List.mem_cons.mp hx with rfl | hmem
      · exact Or.inl rfl
      · exact Or.inr (List.mem_cons_of_mem hd hmem)
    · rcases List.mem_cons.mp hx with rfl | hmem
      · exact Or.inr (List.mem_cons_self _ _)
      · rcases ih hmem with h1 | h1
        · exact Or.inl h1
        · exact Or.inr (List.mem_cons_of_mem hd h1)

theorem tenantAll_replaceFirst {P : Product → Prop} {t : Tenant} {b : String} {p' : Product}
    (h : TenantAll P t) (hp : P p') : TenantAll P ⟨replaceFirst t.products b p'⟩ := by
  intro x hx
  rcases mem_replaceFirst hx with rfl | hmem
  · exact hp
  · exact h x hmem

theorem mem_deleteFirst {x : Product} {b : String} :
    ∀ {ps : List Product}, x ∈ deleteFirst ps b → x ∈ ps := by
  intro ps
  induction ps with
  | nil => intro hx; simp [deleteFirst] at hx
  | cons hd rest ih =>
    intro hx
    simp only [deleteFirst] at hx
    split at hx
    · exact List.mem_cons_of_mem hd hx
    · rcases List.mem_cons.mp hx with rfl | hmem
      · exact List.mem_cons_self _ _
      · exact List.mem_cons_of_mem hd (ih hmem)

theorem tenantAll_deleteFirst {P : Product → Prop} {t : Tenant} {b : String}
    (h : TenantAll P t) : TenantAll P ⟨deleteFirst t.products b⟩ :=
  fun x hx => h x (mem_deleteFirst hx)

theorem findProduct_mem {t : Tenant} {b : String} {p : Product}
    (h : findProduct t b = some p) : p ∈ t.products :=
  List.mem_of_find?_eq_some h

/-! ### Invariant I1: the running counter equals the signed history sum -/

/-- Invariant I1 for one product: `currentStock` is the signed sum of its
stock history. -/
def StockConsistent (p : Product) : Prop :=
  p.currentStock = stockSum p.stockHistory

instance (p : Product) : Decidable (StockConsistent p) :=
  inferInstanceAs (Decidable (p.currentStock = stockSum p.stockHistory))

theorem stockSum_single (m : StockMovement) : stockSum [m] = signedQty m := by
  simp [stockSum]

theorem tenantAll_trySave {P : Product → Prop} {t : Tenant} {p : Product} {msg : String}
    (h : TenantAll P t) (hp : docValid p → P p) : TenantAll P (trySave t p msg).2 := by
  unfold trySave
  split
  · next hv => exact tenantAll_append h (hp hv)
  · exact h

theorem tenantAll_trySaveReplace {P : Product → Prop} {t : Tenant} {b : String}
    {p' : Product} {msg : String} (h : TenantAll P t) (hp : docValid p' → P p') :
    TenantAll P (trySaveReplace t b p' msg).2 := by
  unfold trySaveReplace
  split
  · next hv => exact tenantAll_replaceFirst h (hp hv)
  · exact h

theorem applyUpdateFields_currentStock (p1 : Product) (args : UpdateArgs) :
    (applyUpdateFields p1 args).currentStock = p1.currentStock := rfl

theorem applyUpdateFields_stockHistory (p1 : Product) (args : UpdateArgs) :
    (applyUpdateFields p1 args).stockHistory = p1.stockHistory := rfl

theorem applyUpdateCategory_currentStock (p2 : Product)
    (c : Option (Option (String × String))) :
    (applyUpdateCategory p2 c).currentStock = p2.currentStock := by
  match c with
  | none => rfl
  | some none => rfl
  | some (some d) => rfl

theorem applyUpdateCategory_stockHistory (p2 : Product)
    (c : Option (Option (String × String))) :
    (applyUpdateCategory p2 c).stockHistory = p2.stockHistory := by
  match c with
  | none => rfl
  | some none => rfl
  | some (some d) => rfl

theorem updateBarcodeStep_ok {t : Tenant} {barcode : String} {nbArg : Option String}
    {p p1 : Product} (h : updateBarcodeStep t barcode nbArg p = .ok p1) :
    p1.currentStock = p.currentStock ∧ p1.stockHistory = p.stockHistory := by
  unfold updateBarcodeStep at h
  split at h
  · injection h with hh
    subst hh
    exact ⟨rfl, rfl⟩
  · split at h
    · injection h with hh
      subst hh
      exact ⟨rfl, rfl⟩
    · split at h
      · exact absurd h (by simp)
      · injection h with hh
        subst hh
        exact ⟨rfl, rfl⟩

theorem createProduct_stockConsistent (t : Tenant) (barcode name : String) (q : Int)
    (note : String) (bp sp : Int) (bf sl u : String) (cat : Option (String × String))
    (h : TenantAll StockConsistent t) :
    TenantAll StockConsistent (createProduct t barcode name q note bp sp bf sl u cat).2 := by
  unfold createProduct
  split
  · exact h
  · split
    · exact h
    · apply tenantAll_trySave h
      intro hv
      show q = stockSum (if q > 0 then _ else [])
      by_cases hq : q > 0
      · rw [if_pos hq, stockSum_single]
        rfl
      · rw [if_neg hq]
        have h0 : (0 : Int) ≤ q := hv.2.2.1
        have hq0 : q = 0 := by omega
        rw [hq0]
        rfl

theorem addStock_stockConsistent (t : Tenant) (barcode : String) (q : Int)
    (note s : String) (h : TenantAll StockConsistent t) :
    TenantAll StockConsistent (addStock t barcode q note s).2 := by
  unfold addStock
  split
  · exact h
  · split
    · exact h
    · next p hf =>
      have hp : StockConsistent p := h p (findProduct_mem hf)
      apply tenantAll_trySaveReplace h
      intro _
      show p.currentStock + q = stockSum (p.stockHistory ++ [_])
      rw [stockSum_append, stockSum_single, hp]
      rfl

theorem removeStock_stockConsistent (t : Tenant) (barcode : String) (q : Int)
    (note l : String) (h : TenantAll StockConsistent t) :
    TenantAll StockConsistent (removeStock t barcode q note l).2 := by
  unfold removeStock
  split
  · exact h
  · split
    · exact h
    · next p hf =>
      have hp : StockConsistent p := h p (findProduct_mem hf)
      split
      · exact h
      · apply tenantAll_trySaveReplace h
        intro _
        show p.currentStock - q = stockSum (p.stockHistory ++ [_])
        rw [stockSum_append, stockSum_single, hp]
        show _ = _ + signedQty _
        have hs : signedQty ⟨q, .remove, note, "", (jsTrim l)⟩ = -q := rfl
        rw [hs]
        ring

theorem duplicateProduct_stockConsistent (t : Tenant) (barcode : String)
    (h : TenantAll StockConsistent t) :
    TenantAll StockConsistent (duplicateProduct t barcode).2 := by
  unfold duplicateProduct
  split
  · exact h
  · next orig hf =>
    apply tenantAll_trySave h
    intro hv
    show orig.currentStock = stockSum (if orig.currentStock > 0 then _ else [])
    by_cases hq : orig.currentStock > 0
    · rw [if_pos hq, stockSum_single]
      rfl
    · rw [if_neg hq]
      have h0 : (0 : Int) ≤ orig.currentStock := hv.2.2.1
      have hq0 : orig.currentStock = 0 := by omega
      rw [hq0]
      rfl

theorem updateProduct_stockConsistent (t : Tenant) (barcode : String) (args : UpdateArgs)
    (h : TenantAll StockConsistent t) :
    TenantAll StockConsistent (updateProduct t barcode args).2 := by
  unfold updateProduct
  split
  · exact h
  · next p hf =>
    have hp : StockConsistent p := h p (findProduct_mem hf)
    split
    · exact h
    · next p1 hstep =>
      have hp1 := updateBarcodeStep_ok hstep
      apply tenantAll_trySaveReplace h
      intro _
      show (applyUpdateCategory (applyUpdateFields p1 args) args.category).currentStock
        = stockSum (applyUpdateCategory (applyUpdateFields p1 args) args.category).stockHistory
      rw [applyUpdateCategory_currentStock, applyUpdateCategory_stockHistory,
        applyUpdateFields_currentStock, applyUpdateFields_stockHistory, hp1.1, hp1.2]
      exact hp

theorem transferredCopy_stockConsistent (srcSlug : String) (tgt : Tenant) (sp : Product) :
    StockConsistent (transferredCopy srcSlug tgt sp) := by
  show sp.currentStock = stockSum [_]
  rw [stockSum_single]
  rfl

theorem transferProduct_stockConsistent (srcSlug tgtSlug : String) (src tgt : Tenant)
    (barcode : String) (keep : Bool) (user : UserAuth) (act sf df : Bool)
    (h1 : TenantAll StockConsistent src) (h2 : TenantAll StockConsistent tgt) :
    TenantAll StockConsistent
        (transferProduct srcSlug tgtSlug src tgt barcode keep user act sf df).src ∧
      TenantAll StockConsistent
        (transferProduct srcSlug tgtSlug src tgt barcode keep user act sf df).tgt := by
  unfold transferProduct
  split
  · exact ⟨h1, h2⟩
  · split
    · exact ⟨h1, h2⟩
    · split
      · exact ⟨h1, h2⟩
      · split
        · exact ⟨h1, h2⟩
        · split
          · exact ⟨h1, h2⟩
          · next sp hf =>
            have htp := transferredCopy_stockConsistent srcSlug tgt sp
            split
            · exact ⟨h1, h2⟩
            · split
              · exact ⟨h1, tenantAll_append h2 htp⟩
              · split
                · exact ⟨h1, tenantAll_append h2 htp⟩
                · exact ⟨tenantAll_deleteFirst h1, tenantAll_append h2 htp⟩

theorem deleteProduct_stockConsistent (t : Tenant) (barcode : String)
    (h : TenantAll StockConsistent t) :
    TenantAll StockConsistent (deleteProduct t barcode).2 := by
  unfold deleteProduct
  split
  · exact h
  · exact tenantAll_deleteFirst h

theorem applyOp_stockConsistent (sys : Sys) (op : Op)
    (h : SysAll StockConsistent sys) : SysAll StockConsistent (applyOp sys op) := by
  cases op with
  | create slug barcode name q note bp sp bf sl u cat =>
    exact sysAll_setTenant h
      (createProduct_stockConsistent _ _ _ _ _ _ _ _ _ _ _ (tenantAll_getTenant h slug))
  | add slug barcode q note s =>
    exact sysAll_setTenant h
      (addStock_stockConsistent _ _ _ _ _ (tenantAll_getTenant h slug))
  | remove slug barcode q note l =>
    exact sysAll_setTenant h
      (removeStock_stockConsistent _ _ _ _ _ (tenantAll_getTenant h slug))
  | duplicate slug barcode =>
    exact sysAll_setTenant h
      (duplicateProduct_stockConsistent _ _ (tenantAll_getTenant h slug))
  | update slug barcode args =>
    exact sysAll_setTenant h
      (updateProduct_stockConsistent _ _ _ (tenantAll_getTenant h slug))
  | transfer s d barcode keep user act sf df =>
    have hout := transferProduct_stockConsistent s d (getTenant sys s) (getTenant sys d)
      barcode keep user act sf df (tenantAll_getTenant h s) (tenantAll_getTenant h d)
    exact sysAll_setTenant (sysAll_setTenant h hout.1) hout.2
  | delete slug barcode =>
    exact sysAll_setTenant h
      (deleteProduct_stockConsistent _ _ (tenantAll_getTenant h slug))

theorem runOps_stockConsistent (init : Sys) (ops : List Op)
    (h : SysAll StockConsistent init) : SysAll StockConsistent (runOps init ops) := by
  induction ops generalizing init with
  | nil => exact h
  | cons op rest ih => exact ih (applyOp init op) (applyOp_stockConsistent init op h)

/-! ### Movement sanity: quantities nonnegative, removes strictly positive -/

/-- Every movement in the product's history has a nonnegative quantity, and
every `remove` movement a strictly positive one. -/
def MovementsSane (p : Product) : Prop :=
  ∀ m ∈ p.stockHistory, 0 ≤ m.quantity ∧ (m.mvtype = .remove → 0 < m.quantity)

instance (p : Product) : Decidable (MovementsSane p) :=
  inferInstanceAs (Decidable (∀ m ∈ p.stockHistory,
    0 ≤ m.quantity ∧ (m.mvtype = .remove → 0 < m.quantity)))

theorem createProduct_movementsSane (t : Tenant) (barcode name : String) (q : Int)
    (note : String) (bp sp : Int) (bf sl u : String) (cat : Option (String × String))
    (h : TenantAll MovementsSane t) :
    TenantAll MovementsSane (createProduct t barcode name q note bp sp bf sl u cat).2 := by
  unfold createProduct
  split
  · exact h
  · split
    · exact h
    · apply tenantAll_trySave h
      intro _ m hm
      dsimp only at hm
      split at hm
      · next hq =>
        rcases List.mem_singleton.mp hm with rfl
        exact ⟨(show (0 : Int) ≤ q by omega), fun hr => MvType.noConfusion hr⟩
      · simp at hm

theorem addStock_movementsSane (t : Tenant) (barcode : String) (q : Int)
    (note s : String) (h : TenantAll MovementsSane t) :
    TenantAll MovementsSane (addStock t barcode q note s).2 := by
  unfold addStock
  split
  · exact h
  · next hq =>
    split
    · exact h
    · next p hf =>
      apply tenantAll_trySaveReplace h
      intro _ m hm
      dsimp only at hm
      rcases List.mem_append.mp hm with hmem | hmem
      · exact h p (findProduct_mem hf) m hmem
      · rcases List.mem_singleton.mp hmem with rfl
        exact ⟨(show (0 : Int) ≤ q by omega), fun hr => MvType.noConfusion hr⟩

theorem removeStock_movementsSane (t : Tenant) (barcode : String) (q : Int)
    (note l : String) (h : TenantAll MovementsSane t) :
    TenantAll MovementsSane (removeStock t barcode q note l).2 := by
  unfold removeStock
  split
  · exact h
  · next hq =>
    split
    · exact h
    · next p hf =>
      split
      · exact h
      · apply tenantAll_trySaveReplace h
        intro _ m hm
        dsimp only at hm
        rcases List.mem_append.mp hm with hmem | hmem
        · exact h p (findProduct_mem hf) m hmem
        · rcases List.mem_singleton.mp hmem with rfl
          exact ⟨(show (0 : Int) ≤ q by omega), fun _ => (show (0 : Int) < q by omega)⟩

theorem duplicateProduct_movementsSane (t : Tenant) (barcode : String)
    (h : TenantAll MovementsSane t) :
    TenantAll MovementsSane (duplicateProduct t barcode).2 := by
  unfold duplicateProduct
  split
  · exact h
  · next orig hf =>
    apply tenantAll_trySave h
    intro _ m hm
    dsimp only at hm
    split at hm
    · next hq =>
      rcases List.mem_singleton.mp hm with rfl
      exact ⟨(show (0 : Int) ≤ orig.currentStock by omega), fun hr => MvType.noConfusion hr⟩
    · simp at hm

theorem updateProduct_movementsSane (t : Tenant) (barcode : String) (args : UpdateArgs)
    (h : TenantAll MovementsSane t) :
    TenantAll MovementsSane (updateProduct t barcode args).2 := by
  unfold updateProduct
  split
  · exact h
  · next p hf =>
    split
    · exact h
    · next p1 hstep =>
      have hp1 := updateBarcodeStep_ok hstep
      apply tenantAll_trySaveReplace h
      intro _ m hm
      rw [applyUpdateCategory_stockHistory, applyUpdateFields_stockHistory, hp1.2] at hm
      exact h p (findProduct_mem hf) m hm

theorem transferredCopy_movementsSane (srcSlug : String) (tgt : Tenant) (sp : Product)
    (hv : docValid (transferredCopy srcSlug tgt sp)) :
    MovementsSane (transferredCopy srcSlug tgt sp) := by
  intro m hm
  dsimp only [transferredCopy] at hm
  rcases List.mem_singleton.mp hm with rfl
  exact ⟨hv.2.2.1, fun hr => MvType.noConfusion hr⟩

theorem transferProduct_movementsSane (srcSlug tgtSlug : String) (src tgt : Tenant)
    (barcode : String) (keep : Bool) (user : UserAuth) (act sf df : Bool)
    (h1 : TenantAll MovementsSane src) (h2 : TenantAll MovementsSane tgt) :
    TenantAll MovementsSane
        (transferProduct srcSlug tgtSlug src tgt barcode keep user act sf df).src ∧
      TenantAll MovementsSane
        (transferProduct srcSlug tgtSlug src tgt barcode keep user act sf df).tgt := by
  unfold transferProduct
  split
  · exact ⟨h1, h2⟩
  · split
    · exact ⟨h1, h2⟩
    · split
      · exact ⟨h1, h2⟩
      · split
        · exact ⟨h1, h2⟩
        · split
          · exact ⟨h1, h2⟩
          · next sp hf =>
            split
            · exact ⟨h1, h2⟩
            · next hguard =>
              have hv : docValid (transferredCopy srcSlug tgt sp) := by
                by_contra hc
                exact hguard (Or.inr hc)
              have htp := transferredCopy_movementsSane srcSlug tgt sp hv
              split
              · exact ⟨h1, tenantAll_append h2 htp⟩
              · split
                · exact ⟨h1, tenantAll_append h2 htp⟩
                · exact ⟨tenantAll_deleteFirst h1, tenantAll_append h2 htp⟩

theorem deleteProduct_movementsSane (t : Tenant) (barcode : String)
    (h : TenantAll MovementsSane t) :
    TenantAll MovementsSane (deleteProduct t barcode).2 := by
  unfold deleteProduct
  split
  · exact h
  · exact tenantAll_deleteFirst h

theorem applyOp_movementsSane (sys : Sys) (op : Op)
    (h : SysAll MovementsSane sys) : SysAll MovementsSane (applyOp sys op) := by
  cases op with
  | create slug barcode name q note bp sp bf sl u cat =>
    exact sysAll_setTenant h
      (createProduct_movementsSane _ _ _ _ _ _ _ _ _ _ _ (tenantAll_getTenant h slug))
  | add slug barcode q note s =>
    exact sysAll_setTenant h
      (addStock_movementsSane _ _ _ _ _ (tenantAll_getTenant h slug))
  | remove slug barcode q note l =>
    exact sysAll_setTenant h
      (removeStock_movementsSane _ _ _ _ _ (tenantAll_getTenant h slug))
  | duplicate slug barcode =>
    exact sysAll_setTenant h
      (duplicateProduct_movementsSane _ _ (tenantAll_getTenant h slug))
  | update slug barcode args =>
    exact sysAll_setTenant h
      (updateProduct_movementsSane _ _ _ (tenantAll_getTenant h slug))
  | transfer s d barcode keep user act sf df =>
    have hout := transferProduct_movementsSane s d (getTenant sys s) (getTenant sys d)
      barcode keep user act sf df (tenantAll_getTenant h s) (tenantAll_getTenant h d)
    exact sysAll_setTenant (sysAll_setTenant h hout.1) hout.2
  | delete slug barcode =>
    exact sysAll_setTenant h
      (deleteProduct_movementsSane _ _ (tenantAll_getTenant h slug))

theorem runOps_movementsSane (init : Sys) (ops : List Op)
    (h : SysAll MovementsSane init) : SysAll MovementsSane (runOps init ops) := by
  induction ops generalizing init with
  | nil => exact h
  | cons op rest ih => exact ih (applyOp init op) (applyOp_movementsSane init op h)

/-! ### Concrete fixtures used by witnesses and counterexamples -/

/-- A zero-stock widget with barcode `X`. -/
def pX : Product := ⟨"X", "Widget", 0, "", 0, 0, "", "", "", "pcs", none, "", []⟩

/-- A zero-stock widget with barcode `X(1)`. -/
def pX1 : Product := ⟨"X(1)", "Widget", 0, "", 0, 0, "", "", "", "pcs", none, "", []⟩

/-- A widget with barcode `B123` and stock 10 backed by one `add` entry. -/
def pB123 : Product :=
  ⟨"B123", "Widget", 10, "", 0, 0, "", "", "", "pcs", none, "",
    [⟨10, .add, "Initial stock", "", ""⟩]⟩

/-- A super-admin principal. -/
def superAdmin : UserAuth := ⟨true, none⟩

/-- Create product `B1` with 5 units, add 3, remove 2 — all in tenant `a`. -/
def wOpsLedger : List Op :=
  [.create "a" "B1" "N" 5 "" 0 0 "" "" "" none,
   .add "a" "B1" 3 "" "",
   .remove "a" "B1" 2 "" ""]

/-- The product `B1` as it stands in tenant `a` after `wOpsLedger`. -/
def wProdLedger : Product :=
  ⟨"B1", "N", 6, "", 0, 0, "", "", "", "ədəd", none, "",
    [⟨5, .add, "Initial stock", "", ""⟩, ⟨3, .add, "", "", ""⟩,
     ⟨2, .remove, "", "", ""⟩]⟩

/-! ### Claim theorems -/

/-- C1: after any sequence of ledger requests — createProduct, addStock,
removeStock, duplicateProduct, transfer, metadata update (and delete) — every
product of every tenant satisfies `currentStock = Σ signed movement
quantities` (adds positive, removes negative), provided every product of the
initial state does.  The handler definitions show the counter is maintained
incrementally at each append (`currentStock + quantity`,
`currentStock - quantity`), never recomputed from the history. -/
theorem C1_currentStock_eq_signed_history_sum (init : Sys) (ops : List Op)
    (hinit : SysAll StockConsistent init) (slug : String) (p : Product)
    (hp : p ∈ (getTenant (runOps init ops) slug).products) :
    p.currentStock = stockSum p.stockHistory :=
  tenantAll_getTenant (runOps_stockConsistent init ops hinit) slug p hp

theorem C1_witness : wProdLedger.currentStock = stockSum wProdLedger.stockHistory :=
  C1_currentStock_eq_signed_history_sum [] wOpsLedger (by decide) "a" wProdLedger
    (by decide)

/-- C2: `removeStock` with `quantity > currentStock` answers `Insufficient
stock` and leaves the tenant state completely unchanged; with
`0 < quantity ≤ currentStock` it appends exactly one `remove` movement of
that quantity and decrements `currentStock` by it in the same atomic save,
and the resulting stock is still nonnegative. -/
theorem C2_removeStock_insufficient_guard (t : Tenant) (barcode : String) (q : Int)
    (note l : String) (p : Product)
    (hf : findProduct t (jsTrim barcode) = some p)
    (hstock : 0 ≤ p.currentStock)
    (hbar : p.barcode ≠ "") (hname : p.name ≠ "")
    (hbp : 0 ≤ p.buyingPrice) (hsp : 0 ≤ p.sellingPrice) :
    (p.currentStock < q →
      removeStock t barcode q note l = (.error (.badRequest "Insufficient stock"), t)) ∧
    (0 < q → q ≤ p.currentStock →
      removeStock t barcode q note l =
        (.ok (), ⟨replaceFirst t.products (jsTrim barcode)
          { p with
            currentStock := p.currentStock - q
            stockHistory := p.stockHistory ++ [⟨q, .remove, note, "", jsTrim l⟩] }⟩) ∧
      0 ≤ p.currentStock - q) := by
  constructor
  · intro hlt
    unfold removeStock
    rw [if_neg (by omega : ¬q ≤ 0), hf]
    dsimp only
    rw [if_pos hlt]
  · intro hq hle
    refine ⟨?_, by omega⟩
    unfold removeStock
    rw [if_neg (by omega : ¬q ≤ 0), hf]
    dsimp only
    rw [if_neg (by omega : ¬p.currentStock < q)]
    unfold trySaveReplace
    rw [if_pos ⟨hbar, hname, (show (0 : Int) ≤ p.currentStock - q by omega), hbp, hsp⟩]

theorem C2_witness :
    removeStock ⟨[pB123]⟩ "B123" 11 "" "" =
      (.error (.badRequest "Insufficient stock"), ⟨[pB123]⟩) :=
  (C2_removeStock_insufficient_guard ⟨[pB123]⟩ "B123" 11 "" "" pB123
    (by decide) (by decide) (by decide) (by decide) (by decide) (by decide)).1
    (by decide)

/-- C3: the spec says a principal with an empty grant list may only be
admitted to the default tenant, and the code comment agrees ("if user has no
companyAccess set, allow default") — but `companyMiddleware` computes
`legacyAccess = companyAccess empty` without comparing the requested slug to
the default, so an empty-grant principal is admitted to every tenant.  This
theorem evaluates the middleware decision at the failing input: a
non-super-admin with empty `companyAccess` requesting `other-company`
(distinct from the default `barcode`) is admitted. -/
theorem C3_empty_grant_admitted_to_any_tenant :
    companyMiddlewareAdmits ⟨false, some []⟩ "other-company" = true ∧
    "other-company" ≠ resolveCompanySlug none "barcode" ∧
    companyMiddlewareAdmits ⟨false, some []⟩ (resolveCompanySlug none "barcode") = true := by
  decide

/-- C7: the transfer route's barcode generation returns the first candidate
of `base, base(1), base(2), …` that is not in use in the tenant; in
particular it returns `base` itself whenever `base` is unused. -/
theorem C7_generateUniqueBarcode_first_free (t : Tenant) (base : String) (k : Nat)
    (hfree : inUse t (candidateBarcode base k) = false)
    (hmin : ∀ j < k, inUse t (candidateBarcode base j) = true) :
    generateUniqueBarcode t base = candidateBarcode base k ∧
    (inUse t base = false → generateUniqueBarcode t base = base) :=
  ⟨generateUniqueBarcode_eq t base k hfree hmin,
   fun hb => generateUniqueBarcode_eq t base 0 hb (fun j hj => absurd hj (by omega))⟩

theorem C7_witness : generateUniqueBarcode ⟨[pX, pX1]⟩ "X" = "X(2)" :=
  ((C7_generateUniqueBarcode_first_free ⟨[pX, pX1]⟩ "X" 2 (by decide)
    (by decide)).1).trans (by decide)

/-- Once the four request guards pass and the source product is found, the
transfer route reduces to the save/keep/delete decision tree. -/
theorem transferProduct_core (srcSlug tgtSlug : String) (src tgt : Tenant)
    (barcode : String) (keep : Bool) (user : UserAuth) (sf df : Bool) (sp : Product)
    (hslug1 : tgtSlug ≠ "") (hslug2 : tgtSlug ≠ srcSlug)
    (hacc : user.isSuperAdmin = true ∨ hasAccessTo user tgtSlug = true)
    (hf : findProduct src (jsTrim barcode) = some sp) :
    transferProduct srcSlug tgtSlug src tgt barcode keep user true sf df =
      (if sf ∨ ¬docValid (transferredCopy srcSlug tgt sp) then
        ⟨.error (.serverError "Failed to transfer product"), src, tgt⟩
      else if keep then
        ⟨.ok "Product copied to target company", src,
          ⟨tgt.products ++ [transferredCopy srcSlug tgt sp]⟩⟩
      else if df then
        ⟨.error (.serverError "Failed to transfer product"), src,
          ⟨tgt.products ++ [transferredCopy srcSlug tgt sp]⟩⟩
      else
        ⟨.ok "Product transferred to target company",
          ⟨deleteFirst src.products (jsTrim barcode)⟩,
          ⟨tgt.products ++ [transferredCopy srcSlug tgt sp]⟩⟩) := by
  unfold transferProduct
  rw [if_neg hslug1, if_neg hslug2,
    if_neg (fun h => hacc.elim (fun ha => h.1 ha) (fun ha => h.2 ha)),
    if_neg (fun h => h rfl), hf]

/-- C5: if creation of the destination copy fails (`save()` throws, e.g. the
destination is unreachable), nothing is deleted in either tenant: the
operation answers the 500 transfer error and both tenant states are exactly
as before the request — the source product is intact. -/
theorem C5_transfer_create_failure_failsafe (srcSlug tgtSlug : String)
    (src tgt : Tenant) (barcode : String) (keep : Bool) (user : UserAuth)
    (df : Bool) (sp : Product)
    (hslug1 : tgtSlug ≠ "") (hslug2 : tgtSlug ≠ srcSlug)
    (hacc : user.isSuperAdmin = true ∨ hasAccessTo user tgtSlug = true)
    (hf : findProduct src (jsTrim barcode) = some sp) :
    transferProduct srcSlug tgtSlug src tgt barcode keep user true true df =
      ⟨.error (.serverError "Failed to transfer product"), src, tgt⟩ := by
  rw [transferProduct_core srcSlug tgtSlug src tgt barcode keep user true df sp
    hslug1 hslug2 hacc hf]
  rw [if_pos (Or.inl rfl)]

theorem C5_witness :
    transferProduct "a" "b" ⟨[pB123]⟩ ⟨[]⟩ "B123" false superAdmin true true false =
      ⟨.error (.serverError "Failed to transfer product"), ⟨[pB123]⟩, ⟨[]⟩⟩ :=
  C5_transfer_create_failure_failsafe "a" "b" ⟨[pB123]⟩ ⟨[]⟩ "B123" false superAdmin
    false pB123 (by decide) (by decide) (Or.inl (by decide)) (by decide)

/-- C4 (amended): when the destination copy is created successfully but the
source deletion fails, the route's single `catch` answers the same generic
500 `Failed to transfer product` as any other failure — there is no distinct
PartialTransfer outcome — while the state holds two live copies: the
destination gained the copy and the source still has the product. -/
theorem C4_delete_failure_reports_generic_error (srcSlug tgtSlug : String)
    (src tgt : Tenant) (barcode : String) (user : UserAuth) (sp : Product)
    (hslug1 : tgtSlug ≠ "") (hslug2 : tgtSlug ≠ srcSlug)
    (hacc : user.isSuperAdmin = true ∨ hasAccessTo user tgtSlug = true)
    (hf : findProduct src (jsTrim barcode) = some sp)
    (hv : docValid (transferredCopy srcSlug tgt sp)) :
    transferProduct srcSlug tgtSlug src tgt barcode false user true false true =
      ⟨.error (.serverError "Failed to transfer product"), src,
        ⟨tgt.products ++ [transferredCopy srcSlug tgt sp]⟩⟩ := by
  rw [transferProduct_core srcSlug tgtSlug src tgt barcode false user false true sp
    hslug1 hslug2 hacc hf]
  rw [if_neg (fun h => h.elim (fun hh => Bool.noConfusion hh) (fun hh => hh hv)),
    if_neg (fun h => Bool.noConfusion h), if_pos rfl]

theorem C4_witness :
    transferProduct "a" "b" ⟨[pB123]⟩ ⟨[]⟩ "B123" false superAdmin true false true =
      ⟨.error (.serverError "Failed to transfer product"), ⟨[pB123]⟩,
        ⟨[transferredCopy "a" ⟨[]⟩ pB123]⟩⟩ :=
  C4_delete_failure_reports_generic_error "a" "b" ⟨[pB123]⟩ ⟨[]⟩ "B123" superAdmin
    pB123 (by decide) (by decide) (Or.inl (by decide)) (by decide) (by decide)

/-- C4 as stated is false on the code: with the deletion failing after a
successful destination save, the response is the generic 500 transfer error —
the very same response value produced when the destination save itself fails —
not a distinct PartialTransfer outcome, even though the state holds two live
copies (`B123` present in both tenants). -/
theorem C4_counterexample :
    (transferProduct "a" "b" ⟨[pB123]⟩ ⟨[]⟩ "B123" false superAdmin true false
        true).response =
      .error (.serverError "Failed to transfer product") ∧
    (transferProduct "a" "b" ⟨[pB123]⟩ ⟨[]⟩ "B123" false superAdmin true false
        true).response =
      (transferProduct "a" "b" ⟨[pB123]⟩ ⟨[]⟩ "B123" false superAdmin true true
        false).response ∧
    (findProduct (transferProduct "a" "b" ⟨[pB123]⟩ ⟨[]⟩ "B123" false superAdmin
        true false true).src "B123").isSome = true ∧
    (findProduct (transferProduct "a" "b" ⟨[pB123]⟩ ⟨[]⟩ "B123" false superAdmin
        true false true).tgt "B123").isSome = true := by
  decide

/-- With per-tenant unique barcodes, deleting the first match removes the
only match, so a lookup afterwards finds nothing. -/
theorem findProduct_deleteFirst_self {ps : List Product} {b : String}
    (hnd : (ps.map (fun p => p.barcode)).Nodup) :
    findProduct ⟨deleteFirst ps b⟩ b = none := by
  induction ps with
  | nil => rfl
  | cons p rest ih =>
    unfold findProduct deleteFirst
    split
    · next heq =>
      have hb : p.barcode = b := by simpa using heq
      rw [List.find?_eq_none]
      intro x hx
      have : x.barcode ≠ p.barcode := by
        intro hxe
        have hpin : p.barcode ∈ rest.map (fun q => q.barcode) :=
          List.mem_map.mpr ⟨x, hx, hxe⟩
        exact (List.nodup_cons.mp (by simpa using hnd)).1 hpin
      simp [hb ▸ this]
    · next heq =>
      have hb : (p.barcode == b) = false := by simpa using heq
      show List.find? (fun x => x.barcode == b) (p :: deleteFirst rest b) = none
      simp only [List.find?_cons, hb]
      exact ih (List.nodup_cons.mp (by simpa using hnd)).2

/-- C9: a successful transfer appends to the destination tenant exactly the
`transferredCopy` aggregate — descriptive fields and `currentStock` equal to
the source product's, category reference `null` and `categoryName` cleared,
history exactly one synthetic `add` entry of the source's stock noting the
origin tenant — and afterwards the source product is gone from the source
tenant if and only if `keepOriginal` is false. -/
theorem C9_transfer_success_shape (srcSlug tgtSlug : String) (src tgt : Tenant)
    (barcode : String) (keep : Bool) (user : UserAuth) (sp : Product)
    (hslug1 : tgtSlug ≠ "") (hslug2 : tgtSlug ≠ srcSlug)
    (hacc : user.isSuperAdmin = true ∨ hasAccessTo user tgtSlug = true)
    (hf : findProduct src (jsTrim barcode) = some sp)
    (hv : docValid (transferredCopy srcSlug tgt sp))
    (hnd : (src.products.map (fun p => p.barcode)).Nodup) :
    (transferProduct srcSlug tgtSlug src tgt barcode keep user true false false).tgt =
        ⟨tgt.products ++ [transferredCopy srcSlug tgt sp]⟩ ∧
    (transferredCopy srcSlug tgt sp).name = sp.name ∧
    (transferredCopy srcSlug tgt sp).currentStock = sp.currentStock ∧
    (transferredCopy srcSlug tgt sp).note = sp.note ∧
    (transferredCopy srcSlug tgt sp).buyingPrice = sp.buyingPrice ∧
    (transferredCopy srcSlug tgt sp).sellingPrice = sp.sellingPrice ∧
    (transferredCopy srcSlug tgt sp).boughtFrom = sp.boughtFrom ∧
    (transferredCopy srcSlug tgt sp).sellLocation = sp.sellLocation ∧
    (transferredCopy srcSlug tgt sp).imageUrl = sp.imageUrl ∧
    (transferredCopy srcSlug tgt sp).unit = sp.unit ∧
    (transferredCopy srcSlug tgt sp).category = none ∧
    (transferredCopy srcSlug tgt sp).categoryName = "" ∧
    (transferredCopy srcSlug tgt sp).stockHistory =
      [⟨sp.currentStock, .add, "Transferred from " ++ srcSlug, "", ""⟩] ∧
    ((findProduct
        (transferProduct srcSlug tgtSlug src tgt barcode keep user true false false).src
        (jsTrim barcode) = none) ↔ keep = false) := by
  have hcore := transferProduct_core srcSlug tgtSlug src tgt barcode keep user
    false false sp hslug1 hslug2 hacc hf
  rw [if_neg (fun h => h.elim (fun hh => Bool.noConfusion hh) (fun hh => hh hv))]
    at hcore
  cases keep with
  | true =>
    rw [if_pos rfl] at hcore
    rw [hcore]
    refine ⟨rfl, rfl, rfl, rfl, rfl, rfl, rfl, rfl, rfl, rfl, rfl, rfl, rfl, ?_⟩
    constructor
    · intro hnone
      rw [show (⟨_, src, _⟩ : TransferOutput).src = src from rfl, hf] at hnone
      exact absurd hnone (by simp)
    · intro hkeep
      exact absurd hkeep (by simp)
  | false =>
    rw [if_neg (fun h => Bool.noConfusion h), if_neg (fun h => Bool.noConfusion h)]
      at hcore
    rw [hcore]
    refine ⟨rfl, rfl, rfl, rfl, rfl, rfl, rfl, rfl, rfl, rfl, rfl, rfl, rfl, ?_⟩
    constructor
    · intro _
      rfl
    · intro _
      exact findProduct_deleteFirst_self hnd

theorem C9_witness :
    (transferProduct "a" "b" ⟨[pB123]⟩ ⟨[]⟩ "B123" false superAdmin true false
        false).tgt = ⟨[transferredCopy "a" ⟨[]⟩ pB123]⟩ ∧
    (findProduct (transferProduct "a" "b" ⟨[pB123]⟩ ⟨[]⟩ "B123" false superAdmin
        true false false).src (jsTrim "B123") = none) :=
  have h := C9_transfer_success_shape "a" "b" ⟨[pB123]⟩ ⟨[]⟩ "B123" false superAdmin
    pB123 (by decide) (by decide) (Or.inl (by decide)) (by decide) (by decide)
    (by decide)
  ⟨h.1, h.2.2.2.2.2.2.2.2.2.2.2.2.2.mpr rfl⟩

/-- C8: `createProduct` answers 409 and creates nothing when the trimmed
barcode is already taken in the tenant; on a fresh barcode with positive
initial quantity it creates the product with exactly one synthetic `add`
movement of that quantity and `currentStock` equal to it, and with initial
quantity 0 (the parse of an absent `quantity` is also 0) it creates the
product with empty history and `currentStock = 0`. -/
theorem C8_createProduct_spec (t : Tenant) (barcode name : String) (q : Int)
    (note : String) (bp sp : Int) (bf sl u : String) (cat : Option (String × String))
    (hbar : barcode ≠ "") (hname : name ≠ "")
    (hbart : jsTrim barcode ≠ "") (hnamet : jsTrim name ≠ "")
    (hbp : 0 ≤ bp) (hsp : 0 ≤ sp) :
    ((findProduct t (jsTrim barcode)).isSome = true →
      createProduct t barcode name q note bp sp bf sl u cat =
        (.error (.conflict "Product with this barcode already exists"), t)) ∧
    (findProduct t (jsTrim barcode) = none → 0 < q →
      createProduct t barcode name q note bp sp bf sl u cat =
        (.ok (), ⟨t.products ++
          [{ barcode := jsTrim barcode, name := jsTrim name, currentStock := q
             note := note, buyingPrice := bp, sellingPrice := sp
             boughtFrom := jsTrim bf, sellLocation := jsTrim sl, imageUrl := ""
             unit := if jsTrim u = "" then "ədəd" else jsTrim u
             category := cat.map (fun c => c.1)
             categoryName := (cat.map (fun c => c.2)).getD ""
             stockHistory := [⟨q, .add, (if note = "" then "Initial stock" else note),
               jsTrim bf, ""⟩] }]⟩)) ∧
    (findProduct t (jsTrim barcode) = none → q = 0 →
      createProduct t barcode name q note bp sp bf sl u cat =
        (.ok (), ⟨t.products ++
          [{ barcode := jsTrim barcode, name := jsTrim name, currentStock := 0
             note := note, buyingPrice := bp, sellingPrice := sp
             boughtFrom := jsTrim bf, sellLocation := jsTrim sl, imageUrl := ""
             unit := if jsTrim u = "" then "ədəd" else jsTrim u
             category := cat.map (fun c => c.1)
             categoryName := (cat.map (fun c => c.2)).getD ""
             stockHistory := [] }]⟩)) := by
  have hguard : ¬(barcode = "" ∨ name = "") := fun h => h.elim hbar hname
  refine ⟨?_, ?_, ?_⟩
  · intro ha
    unfold createProduct
    rw [if_neg hguard, if_pos ha]
  · intro hfr hq
    unfold createProduct
    rw [if_neg hguard, hfr]
    rw [if_neg (by simp : ¬(Option.isSome (none : Option Product)) = true)]
    unfold trySave
    rw [if_pos ⟨hbart, hnamet, (show (0 : Int) ≤ q by omega), hbp, hsp⟩]
    rw [if_pos hq]
  · intro hfr hq
    subst hq
    unfold createProduct
    rw [if_neg hguard, hfr]
    rw [if_neg (by simp : ¬(Option.isSome (none : Option Product)) = true)]
    unfold trySave
    rw [if_pos ⟨hbart, hnamet, le_refl 0, hbp, hsp⟩]
    rw [if_neg (by omega : ¬(0 : Int) > 0)]

theorem C8_witness :
    createProduct ⟨[]⟩ "B2" "N" 3 "" 0 0 "" "" "" none =
      (.ok (), ⟨[⟨"B2", "N", 3, "", 0, 0, "", "", "", "ədəd", none, "",
        [⟨3, .add, "Initial stock", "", ""⟩]⟩]⟩) :=
  ((C8_createProduct_spec ⟨[]⟩ "B2" "N" 3 "" 0 0 "" "" "" none (by decide)
    (by decide) (by decide) (by decide) (by decide) (by decide)).2.1
    (by decide) (by decide)).trans (by decide)

/-- Create a zero-stock product `Z` in tenant `a`, then transfer it to
tenant `b`. -/
def c10ops : List Op :=
  [.create "a" "Z" "N" 0 "" 0 0 "" "" "" none,
   .transfer "a" "b" "Z" false superAdmin true false false]

/-- C10 as stated is false on the code: the transfer route appends its
synthetic `add` entry unconditionally with `quantity = currentStock`, so
transferring a zero-stock product appends a movement of quantity 0 — after
`c10ops`, not every movement in the system has a strictly positive
quantity. -/
theorem C10_counterexample :
    ¬ (∀ e ∈ runOps [] c10ops, ∀ p ∈ e.2.products, ∀ m ∈ p.stockHistory,
        0 < m.quantity) := by
  decide

/-- C10 (amended): every stock movement in any state reachable by ledger
requests has a nonnegative quantity, and every `remove` movement is strictly
positive; the one appended movement that can be 0 is the transfer route's
synthetic `add` entry, which carries the source's `currentStock`. -/
theorem C10_movement_quantity_bounds (init : Sys) (ops : List Op)
    (hinit : SysAll MovementsSane init) (slug : String) (p : Product)
    (hp : p ∈ (getTenant (runOps init ops) slug).products)
    (m : StockMovement) (hm : m ∈ p.stockHistory) :
    0 ≤ m.quantity ∧ (m.mvtype = .remove → 0 < m.quantity) :=
  tenantAll_getTenant (runOps_movementsSane init ops hinit) slug p hp m hm

theorem C10_witness :
    (0 : Int) ≤ (⟨2, .remove, "", "", ""⟩ : StockMovement).quantity ∧
      ((⟨2, .remove, "", "", ""⟩ : StockMovement).mvtype = .remove →
        (0 : Int) < (⟨2, .remove, "", "", ""⟩ : StockMovement).quantity) :=
  C10_movement_quantity_bounds [] wOpsLedger (by decide) "a" wProdLedger (by decide)
    ⟨2, .remove, "", "", ""⟩ (by decide)

/-! ### C6: the connection registry has no single-flight deduplication -/

theorem mem_setCallerPc {e : String × CallPc} {pc : CallPc} :
    ∀ {l : List (String × CallPc)} {i : Nat}, e ∈ setCallerPc l i pc →
      e ∈ l ∨ ∃ f ∈ l, e = (f.1, pc) := by
  intro l
  induction l with
  | nil =>
    intro i hx
    simp [setCallerPc] at hx
  | cons hd rest ih =>
    intro i hx
    match i with
    | 0 =>
      rcases List.mem_cons.mp hx with rfl | hmem
      · exact Or.inr ⟨hd, List.mem_cons_self _ _, rfl⟩
      · exact Or.inl (List.mem_cons_of_mem hd hmem)
    | i + 1 =>
      rcases List.mem_cons.mp hx with rfl | hmem
      · exact Or.inl (List.mem_cons_self _ _)
      · rcases ih hmem with h1 | ⟨f, hf, hfe⟩
        · exact Or.inl (List.mem_cons_of_mem hd h1)
        · exact Or.inr ⟨f, List.mem_cons_of_mem hd hf, hfe⟩

/-- All in-flight callers request `slug` and none is mid-creation, and the
cache already holds a connected handle for `slug`. -/
def CachedReusePre (slug : String) (st : RegistryState) : Prop :=
  cacheLookup st.cache slug = some ⟨1⟩ ∧
    ∀ e ∈ st.callers, e.1 = slug ∧ e.2 ≠ CallPc.afterCreate

theorem registryStep_cached (slug : String) (st : RegistryState) (i : Nat)
    (h : CachedReusePre slug st) :
    CachedReusePre slug (registryStep st i) ∧
      (registryStep st i).creations = st.creations := by
  unfold registryStep
  cases hget : st.callers.get? i with
  | none => exact ⟨h, rfl⟩
  | some e =>
    obtain ⟨slug', pc⟩ := e
    have hmem := List.get?_mem hget
    have he := h.2 _ hmem
    have hslug : slug' = slug := he.1
    subst hslug
    cases pc with
    | start =>
      dsimp only
      rw [h.1]
      dsimp only
      rw [if_pos rfl]
      refine ⟨⟨h.1, ?_⟩, rfl⟩
      intro e hme
      rcases mem_setCallerPc hme with hmem' | ⟨f, hf, hfe⟩
      · exact h.2 e hmem'
      · subst hfe
        exact ⟨(h.2 f hf).1, fun hc => CallPc.noConfusion hc⟩
    | afterCreate => exact absurd rfl he.2
    | done c => exact ⟨h, rfl⟩

theorem registryRun_cached (slug : String) :
    ∀ (sched : List Nat) (st : RegistryState), CachedReusePre slug st →
      (registryRun st sched).creations = st.creations := by
  intro sched
  induction sched with
  | nil =>
    intro st _
    rfl
  | cons i rest ih =>
    intro st h
    have hs := registryStep_cached slug st i h
    show (registryRun (registryStep st i) rest).creations = st.creations
    rw [ih (registryStep st i) hs.1, hs.2]

/-- C6 (amended): `getCompanyConnection` deduplicates only through the cache,
not in flight.  Once some call has registered a connected handle for the
tenant, any schedule of further acquire calls for that tenant performs no
additional connection creations (they all return the cached handle); but
callers whose cache check runs before any registration each start their own
creation — the counterexample run drives 50 concurrent callers to 50
creations. -/
theorem C6_acquire_reuses_cache_only (st : RegistryState) (slug : String)
    (hcache : cacheLookup st.cache slug = some ⟨1⟩)
    (hcallers : ∀ e ∈ st.callers, e.1 = slug ∧ e.2 ≠ CallPc.afterCreate)
    (sched : List Nat) :
    (registryRun st sched).creations = st.creations :=
  registryRun_cached slug sched st ⟨hcache, hcallers⟩

theorem C6_witness :
    (registryRun ⟨[("t", ⟨1⟩)], 3, [("t", .start), ("t", .start)]⟩
      [0, 1, 0, 1]).creations = 3 :=
  C6_acquire_reuses_cache_only ⟨[("t", ⟨1⟩)], 3, [("t", .start), ("t", .start)]⟩
    "t" (by decide) (by decide) [0, 1, 0, 1]

/-- 50 concurrent acquire calls for the uncached tenant `new-tenant`. -/
def c6init : RegistryState := ⟨[], 0, List.replicate 50 ("new-tenant", .start)⟩

/-- All 50 cache checks run before any registration, then the 50 creations
resolve. -/
def c6sched : List Nat := List.range 50 ++ List.range 50

set_option maxRecDepth 10000 in
/-- C6 as stated is false on the code: `getCompanyConnection` has no
single-flight guard — under the interleaving `c6sched`, the 50 concurrent
callers all miss the cache and the run performs 50 connection creations,
not exactly one, even though every caller completes. -/
theorem C6_counterexample :
    (registryRun c6init c6sched).creations = 50 ∧
      ∀ e ∈ (registryRun c6init c6sched).callers, e.2 = CallPc.done ⟨1⟩ := by
  decide

end Shalseti
